import Mathlib

/-!
Verification of the n8n backup service (`src/backup/backup.py`).

The script is embedded shallowly: the local backup directory `/backups` is a
list of entries (path relative to the directory, directory flag, modification
time in seconds, and — for archives — the list of member names).  External
effects (pg_dump, redis, tar, gpg, rclone) are abstracted by boolean outcome
flags in an environment record; the functions below mirror the corresponding
Python functions line by line on this state.
-/

namespace NBackup

/-- One entry of the local backup directory `/backups`.  `path` is relative to
the backup directory (entries inside the working directory are written
`work-TS/name`).  `contents` lists the member names of a tar archive and is
`[]` for everything else. -/
structure Entry where
  path : String
  isDir : Bool
  mtime : Int
  contents : List String
  deriving DecidableEq, Repr

/-- Mutable state threaded through a backup cycle: the backup directory
contents plus, for the upload step, the destinations attempted and the
destinations that actually received the archive. -/
structure St where
  fs : List Entry
  attempts : List String
  uploaded : List String
  deriving DecidableEq, Repr

/-- Outcome flags for the external tools invoked by one cycle, together with
the configuration read from the environment (lines 26-53 of the source). -/
structure Env where
  pgDumpOk : Bool
  redisConnectOk : Bool
  redisSaveCompletes : Bool
  rdbExists : Bool
  tarOk : Bool
  bundleOk : Bool
  gpgOk : Bool
  encryptionKey : String
  destinationsRaw : String
  uploadOk : String → Bool
  deleteLocalAfterUpload : Bool
  retentionDays : Int
  now : Int

/-- Boolean prefix test on character lists (used to embed `str.startswith`
and the single-level glob `n8n-backup-*`). -/
def isPre : List Char → List Char → Bool
  | [], _ => true
  | _ :: _, [] => false
  | a :: ps, b :: ss => a == b && isPre ps ss

/-- `work-TS`, the working directory name (line 293). -/
def workName (ts : String) : String := "work-" ++ ts

/-- Path of an intermediate artifact inside the working directory. -/
def wpath (ts n : String) : String := workName ts ++ "/" ++ n

/-- `n8n-backup-TS.tar.gz`, the final archive name (line 142). -/
def archiveName (ts : String) : String := "n8n-backup-" ++ ts ++ ".tar.gz"

/-- Does a file or directory with this exact path exist? -/
def existsPath (st : St) (p : String) : Bool :=
  st.fs.any (fun f => f.path == p)

/-- Create (or overwrite) a regular file. -/
def addFile (st : St) (p : String) (m : Int) (c : List String) : St :=
  { st with fs := st.fs.filter (fun f => !(f.path == p)) ++ [⟨p, false, m, c⟩] }

/-- `Path.unlink`: remove the file at `p`. -/
def unlink (st : St) (p : String) : St :=
  { st with fs := st.fs.filter (fun f => !(f.path == p)) }

/-- `work_dir.mkdir(parents=True, exist_ok=True)` (line 294). -/
def mkdirWork (ts : String) (m : Int) (st : St) : St :=
  if existsPath st (workName ts) then st
  else { st with fs := st.fs ++ [⟨workName ts, true, m, []⟩] }

/-- Is `p` the working directory of cycle `ts` or an entry inside it? -/
def inWorkDir (ts : String) (p : String) : Bool :=
  p == workName ts || isPre (workName ts ++ "/").data p.data

/-- `shutil.rmtree(work_dir)` (line 345): removes the working directory and
everything below it. -/
def rmtreeWork (ts : String) (fs : List Entry) : List Entry :=
  fs.filter (fun f => !(inWorkDir ts f.path))

/-- Single-level glob `n8n-backup-*` over the backup directory (line 219):
the name starts with the fixed artifact prefix and names a direct child. -/
def globBackup (p : String) : Bool :=
  isPre "n8n-backup-".data p.data && !(p.data.contains '/')

/-- `cleanup_old_backups` (lines 211-226): when retention is positive, unlink
every regular file matching `n8n-backup-*` whose mtime is older than
`now - BACKUP_RETENTION_DAYS` days; disabled for non-positive retention. -/
def cleanup_old_backups (days : Int) (now : Int) (fs : List Entry) : List Entry :=
  if days ≤ 0 then fs
  else fs.filter (fun f =>
    !(globBackup f.path && !f.isDir && decide (f.mtime < now - days * 86400)))

/-- `run_pg_dump` (lines 56-76): writes `database.dump` into the working
directory, raising on a non-zero pg_dump exit. -/
def run_pg_dump (env : Env) (ts : String) (st : St) : St × Except String Unit :=
  if env.pgDumpOk then (addFile st (wpath ts "database.dump") env.now [], .ok ())
  else (st, .error "pg_dump failed")

/-- `run_redis_backup` (lines 79-122): triggers BGSAVE, polls `lastsave` for at
most 300 seconds, then gzips the RDB file into the working directory.  Every
failure mode — connection error, poll timeout (the `RuntimeError` of line 105),
missing `dump.rdb` — is caught by the handlers of lines 119-122 and only
logged, so the function never raises; the artifact appears exactly when the
save completed and the RDB file was found. -/
def run_redis_backup (env : Env) (ts : String) (st : St) : St :=
  if env.redisConnectOk && env.redisSaveCompletes && env.rdbExists then
    addFile st (wpath ts "redis.rdb.gz") env.now []
  else st

/-- `tar_volume_data` (lines 125-137): archives the volume roots into
`volumes.tar.gz` inside the working directory, raising on I/O error. -/
def tar_volume_data (env : Env) (ts : String) (st : St) : St × Except String Unit :=
  if env.tarOk then (addFile st (wpath ts "volumes.tar.gz") env.now [], .ok ())
  else (st, .error "volume archiving failed")

/-- `create_final_archive` (lines 140-153): bundles the dump, the volume
archive and — exactly when it exists — the redis dump into
`n8n-backup-TS.tar.gz` placed directly in the backup directory (member names
are the basenames, line 146-149).  `tarfile.open(..., 'w:gz')` creates the
file before members are added, so on a bundling error the (partial) archive
file already exists when the exception propagates. -/
def create_final_archive (env : Env) (ts : String) (st : St) : St × Except String String :=
  let name := archiveName ts
  let withRedis := existsPath st (wpath ts "redis.rdb.gz")
  if env.bundleOk then
    (addFile st name env.now
      (["database.dump", "volumes.tar.gz"] ++ if withRedis then ["redis.rdb.gz"] else []),
     .ok name)
  else
    (addFile st name env.now [], .error "bundling failed")

/-- Contents recorded for the file at `p` (empty for a missing path). -/
def contentsAt (st : St) (p : String) : List String :=
  ((st.fs.find? (fun f => f.path == p)).map Entry.contents).getD []

/-- `encrypt_archive` (lines 156-182): a no-op returning the archive unchanged
when no key is configured; otherwise gpg writes
`archive_path.with_suffix(archive_path.suffix + '.gpg')` — i.e. the same name
with `.gpg` appended — and on success the plaintext archive is unlinked
(line 179); a non-zero gpg exit raises. -/
def encrypt_archive (env : Env) (p : String) (st : St) : St × Except String String :=
  if env.encryptionKey == "" then (st, .ok p)
  else if env.gpgOk then
    (unlink (addFile st (p ++ ".gpg") env.now (contentsAt st p)) p, .ok (p ++ ".gpg"))
  else (st, .error "GPG encryption failed")

/-- `str.split(',')` on the character level: comma-separated pieces, keeping
empty pieces (Python returns `[""]` for the empty string). -/
def splitComma : List Char → List (List Char)
  | [] => [[]]
  | c :: rest =>
    match splitComma rest with
    | [] => [[]]
    | w :: ws => if c = ',' then [] :: w :: ws else (c :: w) :: ws

/-- `str.strip()`: drop whitespace from both ends. -/
def trimChars (l : List Char) : List Char :=
  ((l.dropWhile Char.isWhitespace).reverse.dropWhile Char.isWhitespace).reverse

/-- The destination parsing of line 191: split the configured string on
commas, strip whitespace, drop empty pieces. -/
def parseDestinations (raw : String) : List String :=
  ((splitComma raw.data).map (fun w => String.mk (trimChars w))).filter
    (fun d => !(d == ""))

/-- The upload loop of lines 196-208: destinations in order; a failed
`rclone copyto` raises immediately, so later destinations are not attempted. -/
def uploadLoop (env : Env) (dests : List String) (st : St) : St × Except String Unit :=
  match dests with
  | [] => (st, .ok ())
  | d :: rest =>
    let st1 : St := { st with attempts := st.attempts ++ [d] }
    if env.uploadOk d then
      uploadLoop env rest { st1 with uploaded := st1.uploaded ++ [d] }
    else (st1, .error ("rclone upload to " ++ d ++ " failed"))

/-- `upload_to_destinations` (lines 185-208): returns without uploading when
the raw destination string is empty or parses to no destinations, otherwise
runs the upload loop. -/
def upload_to_destinations (env : Env) (st : St) : St × Except String Unit :=
  if env.destinationsRaw == "" then (st, .ok ())
  else uploadLoop env (parseDestinations env.destinationsRaw) st

/-- The `try` body of `run_backup` (lines 296-332): the eight pipeline steps in
order, short-circuiting on the first raised exception.  Notifications and the
remote cleanup (lines 327-331) touch no local state and never raise. -/
def pipelineSteps (env : Env) (ts : String) (st : St) : St × Except String String :=
  match run_pg_dump env ts st with
  | (st1, .error e) => (st1, .error e)
  | (st1, .ok _) =>
    let st2 := run_redis_backup env ts st1
    match tar_volume_data env ts st2 with
    | (st3, .error e) => (st3, .error e)
    | (st3, .ok _) =>
      match create_final_archive env ts st3 with
      | (st4, .error e) => (st4, .error e)
      | (st4, .ok name) =>
        match encrypt_archive env name st4 with
        | (st5, .error e) => (st5, .error e)
        | (st5, .ok final) =>
          match upload_to_destinations env st5 with
          | (st6, .error e) => (st6, .error e)
          | (st6, .ok _) =>
            let st7 := if env.deleteLocalAfterUpload && !(env.destinationsRaw == "")
              then unlink st6 final else st6
            let st8 : St := { st7 with
              fs := cleanup_old_backups env.retentionDays env.now st7.fs }
            (st8, .ok final)

/-- `run_backup` (lines 290-345): create the working directory, run the
pipeline, and — in the `finally` of lines 342-345 — remove the working
directory on success and failure alike; a pipeline exception is re-raised
(line 341), shown here as the `.error` result. -/
def run_backup (env : Env) (ts : String) (st : St) : St × Except String String :=
  let r := pipelineSteps env ts (mkdirWork ts env.now st)
  ({ r.1 with fs := rmtreeWork ts r.1.fs }, r.2)

end NBackup

/-!
The scheduler (`main`, lines 348-382) delegates timing to the external
`croniter` library, which is not part of this repository; its behaviour is
modelled here from the spec.  Times are minutes since the Unix epoch
(1970-01-01T00:00 UTC); cron expressions are the standard five space-separated
fields (minute, hour, day of month, month, day of week with Sunday = 0).
-/
namespace Cron

/-- One atom of a cron field: `*`, a value, a range `a-b`, or a
stepped range `a-b/s` (also produced by `*/s` and `a/s`). -/
inductive FieldSpec where
  | all
  | val (n : Nat)
  | range (a b : Nat)
  | step (a b s : Nat)
  deriving DecidableEq, Repr

/-- Does the value `v` satisfy one field atom? -/
def matchSpec (v : Nat) : FieldSpec → Bool
  | .all => true
  | .val n => v == n
  | .range a b => a ≤ v && v ≤ b
  | .step a b s => a ≤ v && v ≤ b && (v - a) % s == 0

/-- A field (a comma list of atoms) matches when some atom matches. -/
def matchField (specs : List FieldSpec) (v : Nat) : Bool := specs.any (matchSpec v)

/-- A field is restricted when it is not `*` (used for the standard
day-of-month / day-of-week disjunction rule). -/
def isRestricted (specs : List FieldSpec) : Bool := !(specs.contains .all)

/-- A parsed five-field cron expression. -/
structure CronExpr where
  minute : List FieldSpec
  hour : List FieldSpec
  dom : List FieldSpec
  month : List FieldSpec
  dow : List FieldSpec
  deriving DecidableEq, Repr

/-- Proleptic Gregorian date (year, month, day) of a day count since
1970-01-01, by the standard era-based civil-calendar algorithm. -/
def civilFromDays (z : Nat) : Nat × Nat × Nat :=
  let z2 := z + 719468
  let era := z2 / 146097
  let doe := z2 % 146097
  let yoe := (doe - doe / 1460 + doe / 36524 - doe / 146096) / 365
  let y := yoe + era * 400
  let doy := doe - (365 * yoe + yoe / 4 - yoe / 100)
  let mp := (5 * doy + 2) / 153
  let d := doy - (153 * mp + 2) / 5 + 1
  let m := if mp < 10 then mp + 3 else mp - 9
  (if m ≤ 2 then y + 1 else y, m, d)

/-- Modelled from the spec: does minute `t` satisfy the cron expression?
Minute, hour and month must each match; day of month and day of week are
combined with OR when both are restricted, with AND otherwise (the standard
cron rule, which `croniter` follows).  1970-01-01 was a Thursday, so the
cron weekday (Sunday = 0) of day `d` is `(d + 4) % 7`. -/
def cronMatch (c : CronExpr) (t : Nat) : Bool :=
  let mi := t % 60
  let hr := t / 60 % 24
  let days := t / 1440
  let ymd := civilFromDays days
  let dw := (days + 4) % 7
  matchField c.minute mi && matchField c.hour hr && matchField c.month ymd.2.1 &&
    (if isRestricted c.dom && isRestricted c.dow then
      matchField c.dom ymd.2.2 || matchField c.dow dw
     else
      matchField c.dom ymd.2.2 && matchField c.dow dw)

/-- Linear search for the first matching minute at or after `t`, with fuel. -/
def searchNext (c : CronExpr) : Nat → Nat → Option Nat
  | 0, _ => none
  | fuel + 1, t => if cronMatch c t then some t else searchNext c fuel (t + 1)

/-- Modelled from the spec: `croniter.get_next` — the first minute matching
the schedule strictly after `now` (the search is bounded by a year's worth
of minutes, enough for every satisfiable five-field expression). -/
def get_next (c : CronExpr) (now : Nat) : Option Nat :=
  searchNext c 527040 (now + 1)

/-- `str.split(sep)` on the character level, keeping empty pieces. -/
def splitSep (sep : Char) : List Char → List (List Char)
  | [] => [[]]
  | c :: rest =>
    match splitSep sep rest with
    | [] => [[]]
    | w :: ws => if c = sep then [] :: w :: ws else (c :: w) :: ws

/-- The numeric value of a decimal digit character. -/
def charDigit (c : Char) : Option Nat :=
  if '0' ≤ c ∧ c ≤ '9' then some (c.toNat - '0'.toNat) else none

/-- Accumulator loop for decimal parsing. -/
def natFromCharsAux : List Char → Nat → Option Nat
  | [], acc => some acc
  | c :: rest, acc =>
    match charDigit c with
    | none => none
    | some d => natFromCharsAux rest (acc * 10 + d)

/-- Parse a non-empty all-digit word as a number. -/
def natFromChars (l : List Char) : Option Nat :=
  if l = [] then none else natFromCharsAux l 0

/-- Parse the base of a stepped atom (`*`, `a` or `a-b`, where a bare `a`
extends to the top of the field's range) against field bounds. -/
def parseBase (lo hi : Nat) (w : List Char) : Option (Nat × Nat) :=
  if w = ['*'] then some (lo, hi)
  else
    match splitSep '-' w with
    | [x, y] =>
      match natFromChars x, natFromChars y with
      | some a, some b => if lo ≤ a ∧ a ≤ b ∧ b ≤ hi then some (a, b) else none
      | _, _ => none
    | [x] =>
      match natFromChars x with
      | some n => if lo ≤ n ∧ n ≤ hi then some (n, hi) else none
      | none => none
    | _ => none

/-- Parse one cron field atom against the field's bounds. -/
def parseAtom (lo hi : Nat) (w : List Char) : Option FieldSpec :=
  if w = ['*'] then some .all
  else
    match splitSep '/' w with
    | [base, stepw] =>
      match natFromChars stepw, parseBase lo hi base with
      | some s, some (a, b) => if s = 0 then none else some (.step a b s)
      | _, _ => none
    | [base] =>
      match splitSep '-' base with
      | [x, y] =>
        match natFromChars x, natFromChars y with
        | some a, some b => if lo ≤ a ∧ a ≤ b ∧ b ≤ hi then some (.range a b) else none
        | _, _ => none
      | [x] =>
        match natFromChars x with
        | some n => if lo ≤ n ∧ n ≤ hi then some (.val n) else none
        | none => none
      | _ => none
    | _ => none

/-- Collect a list of optional results, failing if any failed. -/
def seqOptions : List (Option α) → Option (List α)
  | [] => some []
  | o :: rest =>
    match o, seqOptions rest with
    | some a, some l => some (a :: l)
    | _, _ => none

/-- Parse one comma-separated cron field. -/
def parseField (lo hi : Nat) (w : List Char) : Option (List FieldSpec) :=
  seqOptions ((splitSep ',' w).map (parseAtom lo hi))

/-- Modelled from the spec: parse a five-field cron expression; `none` is
`croniter.is_valid` returning false. -/
def parseCron (s : String) : Option CronExpr :=
  match (splitSep ' ' s.data).filter (fun w => !w.isEmpty) with
  | [mi, hr, dm, mo, dw] =>
    match parseField 0 59 mi, parseField 0 23 hr, parseField 1 31 dm,
        parseField 1 12 mo, parseField 0 6 dw with
    | some a, some b, some c, some d, some e => some ⟨a, b, c, d, e⟩
    | _, _, _, _, _ => none
  | _ => none

end Cron

namespace NBackup

/-- The outcome of one invocation of `run_backup` as the scheduler sees it:
it either returned or raised. -/
inductive CycleOutcome where
  | success
  | failure
  deriving DecidableEq, Repr

/-- The schedule loop of `main` (lines 370-382): each iteration computes the
next fire time from the previous one, sleeps, and runs one cycle whose
exception — if any — is caught at lines 381-382 and only logged, so the
outcome never influences the loop.  One outcome is consumed per iteration;
the returned list is the fire times awaited. -/
def scheduleLoop (c : Cron.CronExpr) : List CycleOutcome → Nat → List Nat
  | [], _ => []
  | _ :: rest, now =>
    match Cron.get_next c now with
    | none => []
    | some t => t :: scheduleLoop c rest t

/-- `main` (lines 348-382): validate the schedule (`sys.exit(1)` when invalid,
modelled as `none`), optionally run one immediate cycle whose exception is
caught at lines 364-367 and only logged, then enter the schedule loop. -/
def mainRun (schedule : String) (runOnStart : Bool) (startOutcome : CycleOutcome)
    (outcomes : List CycleOutcome) (now : Nat) : Option (List Nat) :=
  match Cron.parseCron schedule with
  | none => none
  | some c =>
    let _initialFailed : Bool := runOnStart && decide (startOutcome = .failure)
    some (scheduleLoop c outcomes now)

end NBackup

/-! ## Shared auxiliary lemmas -/

namespace NBackup

lemma str_beq_false_of_ne {s t : String} (h : s ≠ t) : (s == t) = false :=
  beq_eq_false_iff_ne.mpr h

lemma str_beq_false_of_len {s t : String} (h : s.data.length ≠ t.data.length) :
    (s == t) = false :=
  str_beq_false_of_ne (fun he => h (by rw [he]))

lemma str_beq_append_left {a b : String} (x : String) (h : (a == b) = false) :
    (x ++ a == x ++ b) = false := by
  apply str_beq_false_of_ne
  intro he
  have hd : x.data ++ a.data = x.data ++ b.data := by
    have := congrArg String.data he
    simpa [String.data_append] using this
  have hab : a = b := by
    apply String.ext
    exact List.append_cancel_left hd
  rw [hab] at h
  simp at h

lemma isPre_append (l m : List Char) : isPre l (l ++ m) = true := by
  induction l with
  | nil => rfl
  | cons c t ih => simp [isPre, ih]

lemma inWork_wpath (ts n : String) : inWorkDir ts (wpath ts n) = true := by
  unfold inWorkDir
  rw [show (wpath ts n).data = (workName ts ++ "/").data ++ n.data from rfl,
    isPre_append, Bool.or_true]

lemma any_path_filter (fs : List Entry) (q : String) (g : Entry → Bool)
    (h : ∀ e : Entry, e.path = q → g e = true) :
    (fs.filter g).any (fun f => f.path == q) = fs.any (fun f => f.path == q) := by
  induction fs with
  | nil => rfl
  | cons a t ih =>
    rcases haq : (a.path == q) with _ | _
    · rcases hg : g a with _ | _
      · simp [List.filter, hg, List.any_cons, haq, ih]
      · simp [List.filter, hg, List.any_cons, haq, ih]
    · have : g a = true := h a (by simpa using haq)
      simp [List.filter, this, List.any_cons, haq]

lemma any_filter_not_self (fs : List Entry) (p : String) :
    ((fs.filter (fun f => !(f.path == p))).any (fun f => f.path == p)) = false := by
  induction fs with
  | nil => rfl
  | cons a t ih =>
    rcases hap : (a.path == p) with _ | _
    · simp [List.filter, hap, List.any_cons, ih]
    · simp [List.filter, hap, List.any_cons, ih]

lemma existsPath_addFile (st : St) (p : String) (m : Int) (c : List String) (q : String) :
    existsPath (addFile st p m c) q = ((p == q) || existsPath st q) := by
  rcases hpq : (p == q) with _ | _
  · have hq : ∀ e : Entry, e.path = q → (!(e.path == p)) = true := by
      intro e he
      have : (e.path == p) = false := by
        apply str_beq_false_of_ne
        intro hep
        rw [he] at hep
        rw [hep] at hpq
        simp at hpq
      simp [this]
    simp [existsPath, addFile, List.any_append, any_path_filter _ _ _ hq, hpq]
  · have : p = q := by simpa using hpq
    simp [existsPath, addFile, List.any_append, this]

lemma existsPath_mkdirWork (ts : String) (m : Int) (st : St) (q : String) :
    existsPath (mkdirWork ts m st) q = ((workName ts == q) || existsPath st q) := by
  unfold mkdirWork
  split
  next h =>
    rcases hwq : (workName ts == q) with _ | _
    · simp
    · have hq : workName ts = q := by simpa using hwq
      rw [← hq]
      simp [h]
  next h =>
    simp [existsPath, List.any_append, Bool.or_comm]

lemma run_redis_backup_skip (env : Env) (ts : String) (st : St)
    (h : (env.redisConnectOk && env.redisSaveCompletes && env.rdbExists) = false) :
    run_redis_backup env ts st = st := by
  unfold run_redis_backup
  rw [h]
  rfl

lemma mem_addFile_self (st : St) (p : String) (m : Int) (c : List String) :
    (⟨p, false, m, c⟩ : Entry) ∈ (addFile st p m c).fs := by
  simp [addFile]

lemma mem_unlink_of_mem {st : St} {e : Entry} {q : String}
    (he : e ∈ st.fs) (hne : (e.path == q) = false) : e ∈ (unlink st q).fs := by
  simp [unlink, List.mem_filter, he, hne]

lemma path_ne_of_mem_unlink {st : St} {e : Entry} {q : String}
    (he : e ∈ (unlink st q).fs) : e.path ≠ q := by
  rw [unlink] at he
  simp only [List.mem_filter, Bool.not_eq_true'] at he
  intro hp
  rw [hp] at he
  simp at he

lemma cleanup_subset {days now : Int} {fs : List Entry} {e : Entry}
    (h : e ∈ cleanup_old_backups days now fs) : e ∈ fs := by
  rw [cleanup_old_backups] at h
  split at h
  · exact h
  · exact List.mem_of_mem_filter h

lemma cleanup_keeps_fresh (days now : Int) (fs : List Entry) (e : Entry)
    (hm : e ∈ fs) (hf : now ≤ e.mtime) : e ∈ cleanup_old_backups days now fs := by
  unfold cleanup_old_backups
  split
  · exact hm
  next h =>
    rw [List.mem_filter]
    refine ⟨hm, ?_⟩
    have : decide (e.mtime < now - days * 86400) = false := by
      simp only [decide_eq_false_iff_not]
      omega
    simp [this]

lemma mem_rmtreeWork {ts : String} {fs : List Entry} {e : Entry}
    (hm : e ∈ fs) (h : inWorkDir ts e.path = false) : e ∈ rmtreeWork ts fs := by
  rw [rmtreeWork, List.mem_filter]
  exact ⟨hm, by simp [h]⟩

lemma rmtreeWork_subset {ts : String} {fs : List Entry} {e : Entry}
    (h : e ∈ rmtreeWork ts fs) : e ∈ fs :=
  List.mem_of_mem_filter h

lemma rmtreeWork_all (ts : String) (fs : List Entry) :
    (rmtreeWork ts fs).all (fun f => !(inWorkDir ts f.path)) = true := by
  simp [rmtreeWork, List.all_eq_true, List.mem_filter]

lemma addFile_attempts (st : St) (p : String) (m : Int) (c : List String) :
    (addFile st p m c).attempts = st.attempts := rfl

lemma addFile_uploaded (st : St) (p : String) (m : Int) (c : List String) :
    (addFile st p m c).uploaded = st.uploaded := rfl

lemma unlink_attempts (st : St) (p : String) : (unlink st p).attempts = st.attempts := rfl

lemma unlink_uploaded (st : St) (p : String) : (unlink st p).uploaded = st.uploaded := rfl

lemma mkdirWork_attempts (ts : String) (m : Int) (st : St) :
    (mkdirWork ts m st).attempts = st.attempts := by
  unfold mkdirWork; split <;> rfl

lemma mkdirWork_uploaded (ts : String) (m : Int) (st : St) :
    (mkdirWork ts m st).uploaded = st.uploaded := by
  unfold mkdirWork; split <;> rfl

lemma run_redis_backup_attempts (env : Env) (ts : String) (st : St) :
    (run_redis_backup env ts st).attempts = st.attempts := by
  unfold run_redis_backup; split <;> rfl

lemma run_redis_backup_uploaded (env : Env) (ts : String) (st : St) :
    (run_redis_backup env ts st).uploaded = st.uploaded := by
  unfold run_redis_backup; split <;> rfl

lemma parseDestinations_empty : parseDestinations "" = [] := rfl

lemma uploadLoop_all_ok (env : Env) (hup : ∀ d, env.uploadOk d = true) :
    ∀ (ds : List String) (st : St),
      uploadLoop env ds st =
        ({ st with attempts := st.attempts ++ ds, uploaded := st.uploaded ++ ds },
         .ok ()) := by
  intro ds
  induction ds with
  | nil => intro st; simp [uploadLoop]
  | cons d rest ih =>
    intro st
    simp [uploadLoop, hup d, ih]

lemma upload_to_destinations_all_ok (env : Env) (hup : ∀ d, env.uploadOk d = true)
    (st : St) :
    upload_to_destinations env st =
      ({ st with
          attempts := st.attempts ++
            (if env.destinationsRaw == "" then []
             else parseDestinations env.destinationsRaw),
          uploaded := st.uploaded ++
            (if env.destinationsRaw == "" then []
             else parseDestinations env.destinationsRaw) },
       .ok ()) := by
  unfold upload_to_destinations
  split
  · simp
  · rw [uploadLoop_all_ok env hup]

end NBackup

/-! ## Claim theorems -/

namespace NBackup

/-- C2: for every cycle — whatever the environment outcomes, timestamp and
prior directory contents, and whether the cycle ends in success or failure —
no entry of the backup directory that is the cycle's working directory or
lies inside it survives the end of `run_backup`. -/
theorem workarea_never_survives_cycle (env : Env) (ts : String) (st : St) :
    ((run_backup env ts st).1).fs.all (fun f => !(inWorkDir ts f.path)) = true :=
  rmtreeWork_all ts _

/-- C3: if the store-snapshot step fails in any of its modes (connection
refused, BGSAVE poll timeout, missing RDB file) while every mandatory step
succeeds, the cycle still ends in success and the final archive contains
exactly the database dump and the volume archive — no snapshot artifact. -/
theorem snapshot_failure_nonfatal
    (env : Env) (ts : String) (st : St)
    (h1 : env.pgDumpOk = true) (h3 : env.tarOk = true) (h4 : env.bundleOk = true)
    (hkey : env.encryptionKey = "") (hup : ∀ d, env.uploadOk d = true)
    (hdel : env.deleteLocalAfterUpload = false)
    (hredis : (env.redisConnectOk && env.redisSaveCompletes && env.rdbExists) = false)
    (hfresh : ∀ f ∈ st.fs, inWorkDir ts f.path = false) :
    (run_backup env ts st).2 = .ok (archiveName ts) ∧
    ∃ e ∈ (run_backup env ts st).1.fs, e.path = archiveName ts ∧
      e.contents = ["database.dump", "volumes.tar.gz"] ∧
      "redis.rdb.gz" ∉ e.contents := by
  have hkeyb : (env.encryptionKey == "") = true := by simp [hkey]
  have hst : existsPath st (wpath ts "redis.rdb.gz") = false := by
    rcases hx : existsPath st (wpath ts "redis.rdb.gz") with _ | _
    · rfl
    · exfalso
      rw [existsPath, List.any_eq_true] at hx
      obtain ⟨f, hf, hfp⟩ := hx
      have hfp2 : f.path = wpath ts "redis.rdb.gz" := by simpa using hfp
      have hfw := hfresh f hf
      rw [hfp2, inWork_wpath] at hfw
      exact Bool.noConfusion hfw
  have hv : (wpath ts "volumes.tar.gz" == wpath ts "redis.rdb.gz") = false :=
    str_beq_append_left (workName ts ++ "/") rfl
  have hd : (wpath ts "database.dump" == wpath ts "redis.rdb.gz") = false :=
    str_beq_append_left (workName ts ++ "/") rfl
  have hw : (workName ts == wpath ts "redis.rdb.gz") = false := by
    apply str_beq_false_of_len
    simp [wpath, String.data_append]
  have hnoredis :
      existsPath (addFile (mkdirWork ts env.now st) (wpath ts "database.dump") env.now [])
        (wpath ts "redis.rdb.gz") = false := by
    rw [existsPath_addFile, existsPath_mkdirWork, hst, hd, hw]
    rfl
  refine ⟨?_, ?_⟩ <;>
    simp only [run_backup, pipelineSteps, run_pg_dump, tar_volume_data,
      create_final_archive, encrypt_archive,
      h1, h3, h4, hkeyb, hdel, if_true, ite_true, ite_false,
      run_redis_backup_skip env ts _ hredis,
      upload_to_destinations_all_ok env hup,
      existsPath_addFile, hnoredis, hv, hd, hw, Bool.false_or, Bool.or_false,
      Bool.false_and, Bool.and_false, if_false, Bool.false_eq_true,
      List.append_nil]
  have hmem : (⟨archiveName ts, false, env.now,
      ["database.dump", "volumes.tar.gz"]⟩ : Entry) ∈
      rmtreeWork ts
        (cleanup_old_backups env.retentionDays env.now
          (addFile
              (addFile (addFile (mkdirWork ts env.now st) (wpath ts "database.dump")
                env.now []) (wpath ts "volumes.tar.gz") env.now [])
              (archiveName ts) env.now ["database.dump", "volumes.tar.gz"]).fs) := by
    exact mem_rmtreeWork
      (cleanup_keeps_fresh _ _ _ _ (mem_addFile_self _ _ _ _) (le_refl _)) rfl
  exact ⟨_, hmem, rfl, rfl, by
    show "redis.rdb.gz" ∉ ["database.dump", "volumes.tar.gz"]
    decide⟩

/-- C3 witness: at a concrete environment in which Redis is unreachable and
everything else succeeds, the cycle ends `Done` and the bundled archive holds
only the dump and the volume archive. -/
theorem snapshot_failure_nonfatal_witness :
    (run_backup
        ⟨true, false, false, false, true, true, true, "", "", fun _ => true,
          false, 30, 0⟩ "TS" ⟨[], [], []⟩).2 = .ok (archiveName "TS") ∧
    ∃ e ∈ (run_backup
        ⟨true, false, false, false, true, true, true, "", "", fun _ => true,
          false, 30, 0⟩ "TS" ⟨[], [], []⟩).1.fs, e.path = archiveName "TS" ∧
      e.contents = ["database.dump", "volumes.tar.gz"] ∧
      "redis.rdb.gz" ∉ e.contents :=
  snapshot_failure_nonfatal _ "TS" _ rfl rfl rfl rfl (fun _ => rfl) rfl rfl
    (by simp)

/-- C4: when at least two destinations are configured and the upload to the
first one fails, the cycle ends `Failed` and the only destination ever
attempted is the first — the later ones receive no copy attempt. -/
theorem first_destination_failure_aborts
    (env : Env) (ts : String) (st : St) (d1 d2 : String) (rest : List String)
    (hdests : parseDestinations env.destinationsRaw = d1 :: d2 :: rest)
    (hfail : env.uploadOk d1 = false)
    (h1 : env.pgDumpOk = true) (h3 : env.tarOk = true) (h4 : env.bundleOk = true)
    (hkey : env.encryptionKey = "") :
    (∃ msg, (run_backup env ts st).2 = .error msg) ∧
    (run_backup env ts st).1.attempts = st.attempts ++ [d1] := by
  have hraw : (env.destinationsRaw == "") = false := by
    rcases h : (env.destinationsRaw == "") with _ | _
    · rfl
    · have he : env.destinationsRaw = "" := by simpa using h
      rw [he, parseDestinations_empty] at hdests
      exact List.noConfusion hdests
  have hkeyb : (env.encryptionKey == "") = true := by simp [hkey]
  refine ⟨⟨"rclone upload to " ++ d1 ++ " failed", ?_⟩, ?_⟩ <;>
    simp only [run_backup, pipelineSteps, run_pg_dump, tar_volume_data,
      create_final_archive, encrypt_archive, upload_to_destinations, uploadLoop,
      h1, h3, h4, hkeyb, hraw, hfail, hdests, if_true, if_false,
      Bool.false_eq_true, ite_true, ite_false, addFile_attempts, addFile_uploaded,
      unlink_attempts, unlink_uploaded, mkdirWork_attempts, mkdirWork_uploaded,
      run_redis_backup_attempts, run_redis_backup_uploaded]

/-- C4 witness: with destinations `"a,b"` and a failing first upload, the
cycle fails having attempted only `"a"`. -/
theorem first_destination_failure_aborts_witness :
    (∃ msg, (run_backup
        ⟨true, true, true, true, true, true, true, "", "a,b", fun _ => false,
          false, 30, 0⟩ "TS" ⟨[], [], []⟩).2 = .error msg) ∧
    (run_backup
        ⟨true, true, true, true, true, true, true, "", "a,b", fun _ => false,
          false, 30, 0⟩ "TS" ⟨[], [], []⟩).1.attempts =
      (⟨[], [], []⟩ : St).attempts ++ ["a"] :=
  first_destination_failure_aborts _ "TS" _ "a" "b" [] rfl rfl rfl rfl rfl rfl

/-- C7: with a positive retention of `N` days, local pruning keeps exactly
the entries that are not old matching backup artifacts; pruning is idempotent
at a fixed clock; and a non-positive retention disables pruning entirely. -/
theorem retention_prune_exact :
    (∀ (days now : Int) (fs : List Entry) (e : Entry), 0 < days →
       (e ∈ cleanup_old_backups days now fs ↔
         e ∈ fs ∧ ¬(globBackup e.path = true ∧ e.isDir = false ∧
           e.mtime < now - days * 86400))) ∧
    (∀ (days now : Int) (fs : List Entry),
       cleanup_old_backups days now (cleanup_old_backups days now fs) =
         cleanup_old_backups days now fs) ∧
    (∀ (days now : Int) (fs : List Entry), days ≤ 0 →
       cleanup_old_backups days now fs = fs) := by
  refine ⟨?_, ?_, ?_⟩
  · intro days now fs e hd
    have hnot : ¬ days ≤ 0 := by omega
    rw [cleanup_old_backups, if_neg hnot, List.mem_filter]
    constructor
    · rintro ⟨hm, hp⟩
      refine ⟨hm, ?_⟩
      rintro ⟨hg1, hg2, hg3⟩
      simp [hg1, hg2, hg3] at hp
    · rintro ⟨hm, hn⟩
      refine ⟨hm, ?_⟩
      have hb : (globBackup e.path && !e.isDir &&
          decide (e.mtime < now - days * 86400)) = false := by
        cases hX : (globBackup e.path && !e.isDir &&
            decide (e.mtime < now - days * 86400)) with
        | false => rfl
        | true =>
          rw [Bool.and_eq_true, Bool.and_eq_true] at hX
          obtain ⟨⟨hx1, hx2⟩, hx3⟩ := hX
          exact absurd ⟨hx1, by simpa using hx2, by simpa using hx3⟩ hn
      simp [hb]
  · intro days now fs
    by_cases h : days ≤ 0
    · simp [cleanup_old_backups, h]
    · simp [cleanup_old_backups, h, List.filter_filter]
  · intro days now fs h
    simp [cleanup_old_backups, h]

/-- C7 witness: a one-day-old artifact at retention one day is pruned. -/
theorem retention_prune_exact_witness :
    (0 : Int) < 1 ∧
    ((⟨"n8n-backup-a.tar.gz", false, 0, []⟩ : Entry) ∈
        cleanup_old_backups 1 86401 [⟨"n8n-backup-a.tar.gz", false, 0, []⟩] ↔
      (⟨"n8n-backup-a.tar.gz", false, 0, []⟩ : Entry) ∈
          [(⟨"n8n-backup-a.tar.gz", false, 0, []⟩ : Entry)] ∧
        ¬(globBackup (⟨"n8n-backup-a.tar.gz", false, 0, []⟩ : Entry).path = true ∧
          (⟨"n8n-backup-a.tar.gz", false, 0, []⟩ : Entry).isDir = false ∧
          (⟨"n8n-backup-a.tar.gz", false, 0, []⟩ : Entry).mtime < 86401 - 1 * 86400)) :=
  ⟨by decide, retention_prune_exact.1 1 86401 _ _ (by decide)⟩

/-- C10: local pruning only ever removes regular files whose name matches the
`n8n-backup-*` glob: any entry that does not match, or is a directory, is
kept; and a working directory name `work-…` never matches the glob. -/
theorem retention_frame_effect :
    (∀ (days now : Int) (fs : List Entry) (e : Entry), e ∈ fs →
       globBackup e.path = false ∨ e.isDir = true →
       e ∈ cleanup_old_backups days now fs) ∧
    (∀ ts : String, globBackup (workName ts) = false) := by
  refine ⟨?_, fun ts => rfl⟩
  intro days now fs e hm hor
  by_cases h : days ≤ 0
  · simpa [cleanup_old_backups, h] using hm
  · rw [cleanup_old_backups, if_neg h, List.mem_filter]
    refine ⟨hm, ?_⟩
    rcases hor with h1 | h1 <;> simp [h1]

/-- C10 witness: a working directory entry survives pruning untouched. -/
theorem retention_frame_effect_witness :
    (⟨"work-x", true, 0, []⟩ : Entry) ∈ [(⟨"work-x", true, 0, []⟩ : Entry)] ∧
    (globBackup (⟨"work-x", true, 0, []⟩ : Entry).path = false ∨
      (⟨"work-x", true, 0, []⟩ : Entry).isDir = true) ∧
    (⟨"work-x", true, 0, []⟩ : Entry) ∈
      cleanup_old_backups 30 864000 [⟨"work-x", true, 0, []⟩] :=
  ⟨by decide, by decide,
    retention_frame_effect.1 30 864000 _ _ (by decide) (by decide)⟩

end NBackup

namespace NBackup

lemma existsPath_unlink_self (st : St) (p : String) :
    existsPath (unlink st p) p = false :=
  any_filter_not_self st.fs p

/-- C6: the encryption step returns the archive unchanged when no key is
configured; with a key configured and gpg succeeding it returns the archive
name with the `.gpg` suffix appended, the plaintext archive no longer exists
and the encrypted file does; a gpg failure raises (failing the cycle). -/
theorem encryption_suffix_policy (env : Env) (p : String) (st : St) :
    (env.encryptionKey = "" → encrypt_archive env p st = (st, .ok p)) ∧
    (env.encryptionKey ≠ "" → env.gpgOk = true →
      (encrypt_archive env p st).2 = .ok (p ++ ".gpg") ∧
      existsPath (encrypt_archive env p st).1 p = false ∧
      existsPath (encrypt_archive env p st).1 (p ++ ".gpg") = true) ∧
    (env.encryptionKey ≠ "" → env.gpgOk = false →
      ∃ msg, (encrypt_archive env p st).2 = .error msg) := by
  refine ⟨?_, ?_, ?_⟩
  · intro h
    simp [encrypt_archive, h]
  · intro h hg
    have hb : (env.encryptionKey == "") = false := str_beq_false_of_ne h
    have hlen : ((p ++ ".gpg") == p) = false := by
      apply str_beq_false_of_len
      simp [String.data_append]
    refine ⟨?_, ?_, ?_⟩
    · simp [encrypt_archive, hb, hg]
    · simp only [encrypt_archive, hb, hg, Bool.false_eq_true, if_false, if_true,
        ite_true, ite_false]
      exact existsPath_unlink_self _ p
    · simp only [encrypt_archive, hb, hg, Bool.false_eq_true, if_false, if_true,
        ite_true, ite_false]
      have hq : ∀ e : Entry, e.path = p ++ ".gpg" → (!(e.path == p)) = true := by
        intro e he
        rw [he, hlen]
        rfl
      show ((addFile st (p ++ ".gpg") env.now (contentsAt st p)).fs.filter
          (fun f => !(f.path == p))).any (fun f => f.path == p ++ ".gpg") = true
      rw [any_path_filter _ _ _ hq]
      have hadd := existsPath_addFile st (p ++ ".gpg") env.now (contentsAt st p)
        (p ++ ".gpg")
      rw [existsPath] at hadd
      rw [hadd]
      simp
  · intro h hg
    simp [encrypt_archive, str_beq_false_of_ne h, hg]

/-- C6 witness: with key `"k"` the encrypted name is the input plus `.gpg`,
the plaintext is gone and the encrypted file exists. -/
theorem encryption_suffix_policy_witness :
    (encrypt_archive
        ⟨true, true, true, true, true, true, true, "k", "", fun _ => true,
          false, 30, 0⟩ "x.tar.gz" ⟨[], [], []⟩).2 = .ok ("x.tar.gz" ++ ".gpg") ∧
    existsPath (encrypt_archive
        ⟨true, true, true, true, true, true, true, "k", "", fun _ => true,
          false, 30, 0⟩ "x.tar.gz" ⟨[], [], []⟩).1 "x.tar.gz" = false ∧
    existsPath (encrypt_archive
        ⟨true, true, true, true, true, true, true, "k", "", fun _ => true,
          false, 30, 0⟩ "x.tar.gz" ⟨[], [], []⟩).1 ("x.tar.gz" ++ ".gpg") = true :=
  (encryption_suffix_policy _ _ _).2.1 (by decide) rfl

/-- C1 counterexample: a cycle in which every step up to the upload succeeds
and the upload to the single destination fails ends `Failed`, yet the
final archive produced by the bundling step is still present in the backup
directory after cleanup — contradicting the claim that a failed cycle leaves
no artifact behind. -/
theorem failed_cycle_leaves_archive_cex :
    (run_backup
        ⟨true, true, true, true, true, true, true, "", "remote:a", fun _ => false,
          false, 30, 0⟩ "TS" ⟨[], [], []⟩).2 =
      Except.error "rclone upload to remote:a failed" ∧
    ∃ e ∈ (run_backup
        ⟨true, true, true, true, true, true, true, "", "remote:a", fun _ => false,
          false, 30, 0⟩ "TS" ⟨[], [], []⟩).1.fs, e.path = archiveName "TS" :=
  ⟨rfl, by decide⟩

/-- C1 (amended): on a cycle failed by the first upload, cleanup removes the
working area (nothing work-scoped survives), but the already-produced final
archive is not removed — it persists in the backup directory. -/
theorem failed_upload_cleanup_scope
    (env : Env) (ts : String) (st : St) (d : String) (ds : List String)
    (hdests : parseDestinations env.destinationsRaw = d :: ds)
    (hfail : env.uploadOk d = false)
    (h1 : env.pgDumpOk = true) (h3 : env.tarOk = true) (h4 : env.bundleOk = true)
    (hkey : env.encryptionKey = "") :
    (∃ msg, (run_backup env ts st).2 = .error msg) ∧
    (∃ e ∈ (run_backup env ts st).1.fs, e.path = archiveName ts) ∧
    ((run_backup env ts st).1.fs.all (fun f => !(inWorkDir ts f.path)) = true) := by
  have hraw : (env.destinationsRaw == "") = false := by
    rcases h : (env.destinationsRaw == "") with _ | _
    · rfl
    · have he : env.destinationsRaw = "" := by simpa using h
      rw [he, parseDestinations_empty] at hdests
      exact List.noConfusion hdests
  have hkeyb : (env.encryptionKey == "") = true := by simp [hkey]
  refine ⟨⟨"rclone upload to " ++ d ++ " failed", ?_⟩, ?_, rmtreeWork_all ts _⟩ <;>
    simp only [run_backup, pipelineSteps, run_pg_dump, tar_volume_data,
      create_final_archive, encrypt_archive, upload_to_destinations, uploadLoop,
      h1, h3, h4, hkeyb, hraw, hfail, hdests, if_true, if_false,
      Bool.false_eq_true, ite_true, ite_false]
  exact ⟨_, mem_rmtreeWork (mem_addFile_self _ _ _ _) rfl, rfl⟩

/-- C1 (amended) witness: the concrete failing-upload cycle of the
counterexample, via the general theorem. -/
theorem failed_upload_cleanup_scope_witness :
    (∃ msg, (run_backup
        ⟨true, true, true, true, true, true, true, "", "remote:a", fun _ => false,
          false, 30, 0⟩ "TS" ⟨[], [], []⟩).2 = .error msg) ∧
    (∃ e ∈ (run_backup
        ⟨true, true, true, true, true, true, true, "", "remote:a", fun _ => false,
          false, 30, 0⟩ "TS" ⟨[], [], []⟩).1.fs, e.path = archiveName "TS") ∧
    ((run_backup
        ⟨true, true, true, true, true, true, true, "", "remote:a", fun _ => false,
          false, 30, 0⟩ "TS" ⟨[], [], []⟩).1.fs.all
      (fun f => !(inWorkDir "TS" f.path)) = true) :=
  failed_upload_cleanup_scope _ "TS" _ "remote:a" [] rfl rfl rfl rfl rfl rfl

/-- C5 counterexample: with the delete-local flag set and the destination
string `","` — non-empty, but parsing to zero destinations — a successful
cycle uploads to nobody (`uploaded = []`) yet deletes the local final
archive, contradicting "removed only if at least one remote destination
actually received the archive". -/
theorem delete_local_without_upload_cex :
    (run_backup
        ⟨true, true, true, true, true, true, true, "", ",", fun _ => true,
          true, 30, 0⟩ "TS" ⟨[], [], []⟩).2 = Except.ok (archiveName "TS") ∧
    (run_backup
        ⟨true, true, true, true, true, true, true, "", ",", fun _ => true,
          true, 30, 0⟩ "TS" ⟨[], [], []⟩).1.uploaded = [] ∧
    ∀ e ∈ (run_backup
        ⟨true, true, true, true, true, true, true, "", ",", fun _ => true,
          true, 30, 0⟩ "TS" ⟨[], [], []⟩).1.fs, e.path ≠ archiveName "TS" :=
  ⟨rfl, rfl, by decide⟩

/-- C5 (amended): for a successful cycle (all uploads succeed), the local
final archive is removed if and only if the delete-local flag is set and the
raw destination string is non-empty — the code tests the raw string, not
whether any destination actually received the archive. -/
theorem delete_local_policy
    (env : Env) (ts : String) (st : St)
    (h1 : env.pgDumpOk = true) (h3 : env.tarOk = true) (h4 : env.bundleOk = true)
    (hgpg : env.encryptionKey ≠ "" → env.gpgOk = true)
    (hup : ∀ d, env.uploadOk d = true) :
    (run_backup env ts st).2 =
      .ok (if env.encryptionKey = "" then archiveName ts else archiveName ts ++ ".gpg") ∧
    ((∃ e ∈ (run_backup env ts st).1.fs,
        e.path = (if env.encryptionKey = "" then archiveName ts
                  else archiveName ts ++ ".gpg")) ↔
      ¬(env.deleteLocalAfterUpload = true ∧ env.destinationsRaw ≠ "")) := by
  have hgpgne : ((archiveName ts ++ ".gpg") == archiveName ts) = false := by
    apply str_beq_false_of_len
    simp [String.data_append]
  by_cases hk : env.encryptionKey = ""
  · have hkeyb : (env.encryptionKey == "") = true := by simp [hk]
    by_cases hdel2 : (env.deleteLocalAfterUpload && !(env.destinationsRaw == "")) = true
    · have hf : env.deleteLocalAfterUpload = true := by
        cases hfl : env.deleteLocalAfterUpload
        · rw [hfl] at hdel2; simp at hdel2
        · rfl
      have hr : (env.destinationsRaw == "") = false := by
        cases hrr : (env.destinationsRaw == "")
        · rfl
        · rw [hrr] at hdel2; simp at hdel2
      have hrne : env.destinationsRaw ≠ "" := by
        intro he
        rw [he] at hr
        simp at hr
      refine ⟨?_, ?_⟩
      · simp only [run_backup, pipelineSteps, run_pg_dump, tar_volume_data,
          create_final_archive, encrypt_archive, h1, h3, h4, hkeyb, hdel2,
          upload_to_destinations_all_ok env hup, if_true, ite_true, ite_false,
          if_false, Bool.false_eq_true]
        simp [hk]
      · simp only [run_backup, pipelineSteps, run_pg_dump, tar_volume_data,
          create_final_archive, encrypt_archive, h1, h3, h4, hkeyb, hdel2,
          upload_to_destinations_all_ok env hup, if_true, ite_true, ite_false,
          if_false, Bool.false_eq_true, if_pos hk]
        constructor
        · rintro ⟨e, he, hp⟩
          exact absurd hp
            (path_ne_of_mem_unlink (cleanup_subset (rmtreeWork_subset he)))
        · intro hn
          exact absurd ⟨hf, hrne⟩ hn
    · have hd2 : (env.deleteLocalAfterUpload && !(env.destinationsRaw == "")) = false := by
        revert hdel2
        cases (env.deleteLocalAfterUpload && !(env.destinationsRaw == "")) <;> simp
      refine ⟨?_, ?_⟩
      · simp only [run_backup, pipelineSteps, run_pg_dump, tar_volume_data,
          create_final_archive, encrypt_archive, h1, h3, h4, hkeyb, hd2,
          upload_to_destinations_all_ok env hup, if_true, ite_true, ite_false,
          if_false, Bool.false_eq_true]
        simp [hk]
      · simp only [run_backup, pipelineSteps, run_pg_dump, tar_volume_data,
          create_final_archive, encrypt_archive, h1, h3, h4, hkeyb, hd2,
          upload_to_destinations_all_ok env hup, if_true, ite_true, ite_false,
          if_false, Bool.false_eq_true, if_pos hk]
        constructor
        · intro _
          rintro ⟨hf2, hr2⟩
          apply hdel2
          rw [hf2, str_beq_false_of_ne hr2]
          rfl
        · intro _
          refine ⟨_, mem_rmtreeWork
            (cleanup_keeps_fresh _ _ _ _ (mem_addFile_self _ _ _ _) (le_refl _)) rfl,
            rfl⟩
  · have hkeyb : (env.encryptionKey == "") = false := str_beq_false_of_ne hk
    have hg : env.gpgOk = true := hgpg hk
    by_cases hdel2 : (env.deleteLocalAfterUpload && !(env.destinationsRaw == "")) = true
    · have hf : env.deleteLocalAfterUpload = true := by
        cases hfl : env.deleteLocalAfterUpload
        · rw [hfl] at hdel2; simp at hdel2
        · rfl
      have hr : (env.destinationsRaw == "") = false := by
        cases hrr : (env.destinationsRaw == "")
        · rfl
        · rw [hrr] at hdel2; simp at hdel2
      have hrne : env.destinationsRaw ≠ "" := by
        intro he
        rw [he] at hr
        simp at hr
      refine ⟨?_, ?_⟩
      · simp only [run_backup, pipelineSteps, run_pg_dump, tar_volume_data,
          create_final_archive, encrypt_archive, h1, h3, h4, hkeyb, hg, hdel2,
          upload_to_destinations_all_ok env hup, if_true, ite_true, ite_false,
          if_false, Bool.false_eq_true]
        simp [hk]
      · simp only [run_backup, pipelineSteps, run_pg_dump, tar_volume_data,
          create_final_archive, encrypt_archive, h1, h3, h4, hkeyb, hg, hdel2,
          upload_to_destinations_all_ok env hup, if_true, ite_true, ite_false,
          if_false, Bool.false_eq_true, if_neg hk]
        constructor
        · rintro ⟨e, he, hp⟩
          exact absurd hp
            (path_ne_of_mem_unlink (cleanup_subset (rmtreeWork_subset he)))
        · intro hn
          exact absurd ⟨hf, hrne⟩ hn
    · have hd2 : (env.deleteLocalAfterUpload && !(env.destinationsRaw == "")) = false := by
        revert hdel2
        cases (env.deleteLocalAfterUpload && !(env.destinationsRaw == "")) <;> simp
      refine ⟨?_, ?_⟩
      · simp only [run_backup, pipelineSteps, run_pg_dump, tar_volume_data,
          create_final_archive, encrypt_archive, h1, h3, h4, hkeyb, hg, hd2,
          upload_to_destinations_all_ok env hup, if_true, ite_true, ite_false,
          if_false, Bool.false_eq_true]
        simp [hk]
      · simp only [run_backup, pipelineSteps, run_pg_dump, tar_volume_data,
          create_final_archive, encrypt_archive, h1, h3, h4, hkeyb, hg, hd2,
          upload_to_destinations_all_ok env hup, if_true, ite_true, ite_false,
          if_false, Bool.false_eq_true, if_neg hk]
        constructor
        · intro _
          rintro ⟨hf2, hr2⟩
          apply hdel2
          rw [hf2, str_beq_false_of_ne hr2]
          rfl
        · intro _
          refine ⟨_, mem_rmtreeWork
            (cleanup_keeps_fresh _ _ _ _
              (mem_unlink_of_mem (mem_addFile_self _ _ _ _) hgpgne) (le_refl _)) rfl,
            rfl⟩


/-- C5 (amended) witness: flag unset, no destinations — the local archive is
kept after a successful cycle. -/
theorem delete_local_policy_witness :
    (run_backup
        ⟨true, true, true, true, true, true, true, "", "", fun _ => true,
          false, 30, 0⟩ "TS" ⟨[], [], []⟩).2 =
      .ok (if ("" : String) = "" then archiveName "TS" else archiveName "TS" ++ ".gpg") ∧
    ((∃ e ∈ (run_backup
        ⟨true, true, true, true, true, true, true, "", "", fun _ => true,
          false, 30, 0⟩ "TS" ⟨[], [], []⟩).1.fs,
        e.path = (if ("" : String) = "" then archiveName "TS"
                  else archiveName "TS" ++ ".gpg")) ↔
      ¬(false = true ∧ ("" : String) ≠ "")) :=
  delete_local_policy _ "TS" _ rfl rfl rfl (fun h => absurd rfl h) (fun _ => rfl)

end NBackup

namespace Cron

lemma searchNext_le (c : CronExpr) :
    ∀ (fuel s t : Nat), searchNext c fuel s = some t → s ≤ t := by
  intro fuel
  induction fuel with
  | zero =>
    intro s t h
    exact absurd h (by simp [searchNext])
  | succ n ih =>
    intro s t h
    rw [searchNext] at h
    split at h
    · injection h with h2
      omega
    · have := ih (s + 1) t h
      omega

end Cron

namespace NBackup

set_option maxRecDepth 100000 in
/-- C8: the next fire time computed for any parsed cron expression is
strictly after the current time; and for the schedule `"0 2 * * *"` at
2024-01-01T03:00 UTC (day 19723 since the epoch) the next fire time is
2024-01-02T02:00 UTC (day 19724), times counted in minutes since the epoch. -/
theorem next_fire_strictly_after :
    (∀ (c : Cron.CronExpr) (now t : Nat), Cron.get_next c now = some t → now < t) ∧
    (∃ c : Cron.CronExpr, Cron.parseCron "0 2 * * *" = some c ∧
      Cron.civilFromDays 19723 = (2024, 1, 1) ∧
      Cron.civilFromDays 19724 = (2024, 1, 2) ∧
      Cron.get_next c (19723 * 1440 + 3 * 60) = some (19724 * 1440 + 2 * 60)) := by
  constructor
  · intro c now t h
    have := Cron.searchNext_le c 527040 (now + 1) t h
    omega
  · refine ⟨⟨[.val 0], [.val 2], [.all], [.all], [.all]⟩, by decide, by decide,
      by decide, ?_⟩
    decide

set_option maxRecDepth 100000 in
/-- C8 witness: the scenario's next fire time is indeed strictly after its
current time, by the general theorem applied at the scenario. -/
theorem next_fire_strictly_after_witness :
    (19723 * 1440 + 3 * 60 : Nat) < 19724 * 1440 + 2 * 60 :=
  next_fire_strictly_after.1 ⟨[.val 0], [.val 2], [.all], [.all], [.all]⟩
    (19723 * 1440 + 3 * 60) (19724 * 1440 + 2 * 60) (by decide)

/-- C9: the scheduling loop's behaviour does not depend on any cycle's
outcome: after a failed cycle (as after a successful one) the next fire time
is still computed and the loop continues with the remaining cycles; and the
whole service run is unchanged by the failure of the optional
run-immediately-on-start cycle. -/
theorem cycle_failure_never_stops_scheduler :
    (∀ (c : Cron.CronExpr) (o : CycleOutcome) (rest : List CycleOutcome) (now t : Nat),
        Cron.get_next c now = some t →
        scheduleLoop c (o :: rest) now = t :: scheduleLoop c rest t) ∧
    (∀ (schedule : String) (r : Bool) (s1 s2 : CycleOutcome)
        (outs : List CycleOutcome) (now : Nat),
        mainRun schedule r s1 outs now = mainRun schedule r s2 outs now) := by
  constructor
  · intro c o rest now t h
    simp [scheduleLoop, h]
  · intro schedule r s1 s2 outs now
    unfold mainRun
    cases Cron.parseCron schedule <;> rfl

/-- C9 witness: with an every-minute schedule, a failing first cycle still
leads the loop to compute the next fire time (minute 1) and continue. -/
theorem cycle_failure_never_stops_scheduler_witness :
    scheduleLoop ⟨[.all], [.all], [.all], [.all], [.all]⟩ [.failure] 0 =
      1 :: scheduleLoop ⟨[.all], [.all], [.all], [.all], [.all]⟩ [] 1 :=
  cycle_failure_never_stops_scheduler.1 ⟨[.all], [.all], [.all], [.all], [.all]⟩
    .failure [] 0 1 (by decide)

end NBackup
